import Mathlib

/-!
Verification development for the pm-copilot feedback-analysis core
(`src/helpscout.ts`: `scrubPii`, `analyzeFeedback` and their helpers).

Modelling conventions:
* JavaScript strings are modelled as `String` / `List Char`; the four PII
  regular expressions are embedded as explicit pattern ASTs (`Rx`) together
  with a backtracking matcher reproducing JS `RegExp` semantics (leftmost
  match, greedy quantifiers, `\b` word boundaries over `[A-Za-z0-9_]`) and
  `String.replace(pattern, fn)` global-replacement semantics.
* JavaScript numbers are idealised as exact rationals (`ℚ`); `Math.round`,
  `Math.min`, `Math.max` are the corresponding exact operations, and
  `round2 q = ⌊100q + 1/2⌋ / 100` models `Math.round(n * 100) / 100`.
* `Math.exp` is kept abstract: every scoring function takes an explicit
  parameter `rexp : ℚ → ℚ` standing for `x ↦ Math.exp x`; no theorem below
  assumes anything about `rexp`, so each holds in particular at `exp`.
* `Date.now()` (read inside `computeSeverityScore` in the source) is passed
  explicitly as `now : ℚ` (milliseconds), and ISO `createdAt` strings are
  abstracted to their parsed millisecond timestamps (`ℚ`).
-/

/-! ## PII scrubber: pattern AST and JS-regex semantics -/

/-- JS `\w`: `[A-Za-z0-9_]` (ASCII). -/
def isWordChar (c : Char) : Bool :=
  c.isAlpha || c.isDigit || c = '_'

/-- Wordness of an optional character; `none` (string edge) is non-word. -/
def optWord : Option Char → Bool
  | some c => isWordChar c
  | none => false

/-- JS `\b`: a word boundary lies between `l` and `r` iff exactly one side is
a word character. -/
def boundaryAt (l r : Option Char) : Bool :=
  optWord l != optWord r

/-- JS `\s` (ASCII part). -/
def jsSpace (c : Char) : Bool :=
  c = ' ' || c = '\t' || c = '\n' || c = '\r' || c = '\x0b' || c = '\x0c'

/-- JS `String.prototype.toLowerCase` (per-character lower-casing, as
`String.toLower` but stated as a character map). -/
def strLower (s : String) : String :=
  String.mk (s.data.map Char.toLower)

/-- Pattern AST covering the constructs used by the four PII regexes:
character classes, greedy counted repetition of a class, greedy option,
sequencing and `\b` assertions. -/
inductive Rx where
  | eps : Rx
  | cls (p : Char → Bool) : Rx
  | reps (p : Char → Bool) (lo : Nat) (hi : Option Nat) : Rx
  | opt (r : Rx) : Rx
  | seq (a b : Rx) : Rx
  | wb : Rx

/-- Sequence a list of patterns. -/
def Rx.cat (l : List Rx) : Rx :=
  l.foldr Rx.seq Rx.eps

/-- Length of the longest prefix of `s` whose characters all satisfy `p`. -/
def runLen (p : Char → Bool) : List Char → Nat
  | [] => 0
  | c :: t => if p c then runLen p t + 1 else 0

/-- All ways a pattern can match a prefix of `s`, in the backtracking
priority order of a JS regex engine (greedy: longer first; `opt`:
present first).  Each candidate is the remaining suffix together with the
character immediately before it (for later `\b` tests).  `pr` is the
character just before `s` in the overall subject string. -/
def Rx.runM : Rx → List Char → Option Char → List (List Char × Option Char)
  | .eps, s, pr => [(s, pr)]
  | .cls p, s, pr =>
    match s with
    | [] => []
    | c :: t => if p c then [(t, some c)] else []
  | .reps p lo hi, s, pr =>
    let m := runLen p s
    let top := match hi with
      | some h => min h m
      | none => m
    if top < lo then []
    else
      (List.range (top + 1 - lo)).map fun j =>
        let k := top - j
        (s.drop k, if k = 0 then pr else (s.take k).getLast?)
  | .opt r, s, pr => r.runM s pr ++ [(s, pr)]
  | .seq a b, s, pr => (a.runM s pr).flatMap fun sp => b.runM sp.1 sp.2
  | .wb, s, pr => if boundaryAt pr s.head? then [(s, pr)] else []

/-- First (highest-priority) match of `r` at the start of `s`: number of
characters consumed, or `none`. -/
def matchAt (r : Rx) (s : List Char) (pr : Option Char) : Option Nat :=
  match r.runM s pr with
  | [] => none
  | (s', _) :: _ => some (s.length - s'.length)

/-- JS `String.replace(regex-with-g, fn)`: scan left to right for matches;
for each match `m` the handler returns the text to substitute together with
a flag (used by the credit-card pass to record whether it actually
redacted); scanning resumes after the end of the match on the original
string.  Returns the rewritten string and the OR of all handler flags. -/
def replaceGo (r : Rx) (handle : List Char → List Char × Bool) :
    Nat → List Char → Option Char → List Char × Bool
  | 0, s, _ => (s, false)
  | _ + 1, [], _ => ([], false)
  | fuel + 1, c :: rest, pr =>
    match matchAt r (c :: rest) pr with
    | some (k + 1) =>
      let m := (c :: rest).take (k + 1)
      let res := handle m
      let tail := replaceGo r handle fuel ((c :: rest).drop (k + 1)) m.getLast?
      (res.1 ++ tail.1, res.2 || tail.2)
    | some 0 =>
      -- an empty match: substitute, then advance one character
      -- (unreachable for the four PII patterns, which never match empty)
      let res := handle []
      let tail := replaceGo r handle fuel rest (some c)
      (res.1 ++ c :: tail.1, res.2 || tail.2)
    | none =>
      let tail := replaceGo r handle fuel rest (some c)
      (c :: tail.1, tail.2)

/-- Run `replaceGo` over the whole string.  The fuel `s.length` bounds the
number of scanning steps: every branch of `replaceGo` strictly shortens the
string by at least as much as it spends fuel, so the fuel never runs out. -/
def replaceRun (r : Rx) (handle : List Char → List Char × Bool)
    (s : List Char) : List Char × Bool :=
  replaceGo r handle s.length s none

/-- Unconditional global replacement by a fixed string. -/
def replaceAll (r : Rx) (rep : List Char) (s : List Char) : List Char :=
  (replaceRun r (fun _ => (rep, true)) s).1

/-- Digit class `\d`. -/
def rxDigit : Char → Bool := fun c => c.isDigit

/-- Class `[-\s]` used by the SSN and credit-card patterns. -/
def rxDashSpace : Char → Bool := fun c => c = '-' || jsSpace c

/-- SSN pattern `\b\d{3}[-\s]\d{2}[-\s]\d{4}\b`. -/
def ssnRx : Rx :=
  Rx.cat [Rx.wb, Rx.reps rxDigit 3 (some 3), Rx.cls rxDashSpace,
    Rx.reps rxDigit 2 (some 2), Rx.cls rxDashSpace,
    Rx.reps rxDigit 4 (some 4), Rx.wb]

/-- One group `\d{4}[-\s]?` of the credit-card pattern. -/
def ccGroup : Rx :=
  Rx.cat [Rx.reps rxDigit 4 (some 4), Rx.opt (Rx.cls rxDashSpace)]

/-- Credit-card candidate pattern `\b(?:\d{4}[-\s]?){2,4}\d{1,4}\b`
(the `{2,4}` quantifier is unrolled as two mandatory copies followed by two
greedy-optional copies, preserving the 4-then-3-then-2 backtracking order). -/
def ccRx : Rx :=
  Rx.cat [Rx.wb, ccGroup, ccGroup, Rx.opt (Rx.seq ccGroup (Rx.opt ccGroup)),
    Rx.reps rxDigit 1 (some 4), Rx.wb]

/-- Local-part class `[A-Za-z0-9._%+\-]` of the email pattern. -/
def rxLocalChar : Char → Bool := fun c =>
  c.isAlpha || c.isDigit || c = '.' || c = '_' || c = '%' || c = '+' || c = '-'

/-- Domain class `[A-Za-z0-9.\-]` of the email pattern. -/
def rxDomChar : Char → Bool := fun c =>
  c.isAlpha || c.isDigit || c = '.' || c = '-'

/-- Email pattern `\b[A-Za-z0-9._%+\-]+@[A-Za-z0-9.\-]+\.[A-Za-z]{2,}\b`. -/
def emailRx : Rx :=
  Rx.cat [Rx.wb, Rx.reps rxLocalChar 1 none, Rx.cls (fun c => c = '@'),
    Rx.reps rxDomChar 1 none, Rx.cls (fun c => c = '.'),
    Rx.reps (fun c => c.isAlpha) 2 none, Rx.wb]

/-- Separator class `[-.\s]` of the phone pattern. -/
def rxPhoneSep : Char → Bool := fun c => c = '-' || c = '.' || jsSpace c

/-- Phone pattern
`(?:\+?1[-.\s]?)?\(?\d{3}\)?[-.\s]?\d{3}[-.\s]?\d{4}\b`. -/
def phoneRx : Rx :=
  Rx.cat [Rx.opt (Rx.cat [Rx.opt (Rx.cls (fun c => c = '+')),
      Rx.cls (fun c => c = '1'), Rx.opt (Rx.cls rxPhoneSep)]),
    Rx.opt (Rx.cls (fun c => c = '(')),
    Rx.reps rxDigit 3 (some 3),
    Rx.opt (Rx.cls (fun c => c = ')')),
    Rx.opt (Rx.cls rxPhoneSep),
    Rx.reps rxDigit 3 (some 3),
    Rx.opt (Rx.cls rxPhoneSep),
    Rx.reps rxDigit 4 (some 4), Rx.wb]

/-! ## Luhn check and `scrubPii` -/

/-- Luhn accumulation over the digit list taken from the RIGHT end
(`alt` starts `false` at the rightmost digit), as in `passesLuhn`. -/
def luhnSum : List Nat → Bool → Nat
  | [], _ => 0
  | d :: rest, alt =>
    (if alt then (if d * 2 > 9 then d * 2 - 9 else d * 2) else d)
      + luhnSum rest (!alt)

/-- Source `passesLuhn(digits)`: alternate-double from the last
digit and test the checksum mod 10. -/
def passesLuhn (ds : List Char) : Bool :=
  luhnSum (ds.reverse.map fun c => c.toNat - '0'.toNat) false % 10 = 0

/-- Digits of a matched span (`match.replace(/\D/g, "")`). -/
def digitsOnly (m : List Char) : List Char :=
  m.filter rxDigit

/-- The credit-card post-filter from `scrubPii`: redact only when the
digits-only form is 13–19 characters long and passes the Luhn check. -/
def ccShouldRedact (m : List Char) : Bool :=
  decide (13 ≤ (digitsOnly m).length) && decide ((digitsOnly m).length ≤ 19)
    && passesLuhn (digitsOnly m)

/-- Result shape of `scrubPii`. -/
structure ScrubResult where
  text : String
  piiCategoriesFound : List String
deriving DecidableEq, Repr

/-- Source `scrubPii`: apply the SSN, credit-card, email and phone
patterns in that order to the evolving string.  The credit-card pass uses a
handler that redacts only Luhn-valid 13–19-digit candidates and records the
category when it does; the other passes record their category when the pass
changed the string. -/
def scrubPii (text : String) : ScrubResult :=
  let s0 := text.data
  let s1 := replaceAll ssnRx "[SSN REDACTED]".data s0
  let cats1 : List String := if s1 = s0 then [] else ["ssn"]
  let cc := replaceRun ccRx
    (fun m => if ccShouldRedact m then ("[CC REDACTED]".data, true) else (m, false))
    s1
  let cats2 := cats1 ++ (if cc.2 then ["credit_card"] else [])
  let s3 := replaceAll emailRx "[EMAIL REDACTED]".data cc.1
  let cats3 := cats2 ++ (if s3 = cc.1 then [] else ["email"])
  let s4 := replaceAll phoneRx "[PHONE REDACTED]".data s3
  let cats4 := cats3 ++ (if s4 = s3 then [] else ["phone"])
  ⟨String.mk s4, cats4⟩

/-- Substring test (JS `String.includes`). -/
def containsSub : List Char → List Char → Bool
  | t, pat =>
    pat.isPrefixOf t ||
      match t with
      | [] => false
      | _ :: rest => containsSub rest pat

/-! ## Data model (`DataPoint`, config and result shapes) -/

/-- Signal provenance. -/
inductive SignalType where
  | REACTIVE : SignalType
  | PROACTIVE : SignalType
deriving DecidableEq, Repr

/-- Optional metadata bag of a `DataPoint` (TS optional fields become
`Option`). -/
structure DPMetadata where
  tags : Option (List String) := none
  votes : Option Nat := none
  comments_count : Option Nat := none
  thread_count : Option Nat := none
  portal : Option String := none
deriving DecidableEq, Repr

/-- Canonical unit of feedback.  `created_at` is the parsed millisecond
timestamp of the source record's ISO string. -/
structure DataPoint where
  id : String
  source : SignalType
  title : String
  text : String
  created_at : ℚ
  metadata : DPMetadata
deriving DecidableEq, Repr

instance : Inhabited DataPoint :=
  ⟨⟨"", SignalType.REACTIVE, "", "", 0, {}⟩⟩

/-- Theme definition from `themes.config.json`. -/
structure ThemeDefinition where
  id : String
  label : String
  keywords : List String
  category : String
deriving DecidableEq, Repr

/-- Themes configuration. -/
structure ThemesConfig where
  version : Nat
  themes : List ThemeDefinition
  stop_words : List String
  emerging_theme_min_frequency : Nat
deriving DecidableEq, Repr

/-- Reference to a contributing data point (id/source/title only). -/
structure DataPointRef where
  id : String
  source : SignalType
  title : String
deriving DecidableEq, Repr

/-- Per-theme result record. -/
structure ThemeMatch where
  theme_id : String
  label : String
  category : String
  reactive_count : Nat
  proactive_count : Nat
  convergent : Bool
  frequency_score : ℚ
  severity_score : ℚ
  vote_momentum_score : ℚ
  priority_score : ℚ
  data_points : List DataPointRef
deriving DecidableEq, Repr

/-- Emerging-theme result record. -/
structure EmergingTheme where
  ngram : String
  frequency : Nat
  data_points : List DataPointRef
deriving DecidableEq, Repr

/-- Overall result of `analyzeFeedback`. -/
structure AnalysisResult where
  config_version : Nat
  known_themes_count : Nat
  total_data_points : Nat
  reactive_count : Nat
  proactive_count : Nat
  themes : List ThemeMatch
  emerging_themes : List EmergingTheme
  unmatched_count : Nat
deriving DecidableEq, Repr

/-- Formatted HelpScout conversation (shape produced by the orchestrator;
`createdAt` abstracted to its parsed timestamp). -/
structure FormattedConversation where
  id : Nat
  number : Nat
  subject : String
  status : String
  createdAt : ℚ
  customerEmail : String
  tags : List String
  preview : String
  customerMessages : List String
  threadCount : Nat
deriving DecidableEq, Repr

/-- A comment on a feature request. -/
structure CommentEntry where
  author : String
  role : String
  comment : String
  created_at : Option ℚ
deriving DecidableEq, Repr

/-- Formatted ProductLift feature request. -/
structure FormattedFeatureRequest where
  id : String
  title : String
  description : String
  status : Option String
  category : Option String
  votes_count : Nat
  comments_count : Nat
  portal : String
  created_at : ℚ
  updated_at : ℚ
  comments : List CommentEntry
deriving DecidableEq, Repr

/-! ## Normalizer -/

/-- Source `conversationToDataPoint`: join subject, preview and customer messages
with spaces and lower-case the blob. -/
def conversationToDataPoint (conv : FormattedConversation) : DataPoint :=
  { id := "hs-" ++ toString conv.id
    source := SignalType.REACTIVE
    title := conv.subject
    text := (String.intercalate " "
      ([conv.subject, conv.preview] ++ conv.customerMessages)) |> strLower
    created_at := conv.createdAt
    metadata := { tags := some conv.tags, thread_count := some conv.threadCount } }

/-- Source `featureRequestToDataPoint`: join title, description and comment texts
with spaces and lower-case the blob. -/
def featureRequestToDataPoint (req : FormattedFeatureRequest) : DataPoint :=
  { id := "pl-" ++ req.id
    source := SignalType.PROACTIVE
    title := req.title
    text := (String.intercalate " "
      ([req.title, req.description] ++ req.comments.map CommentEntry.comment)) |> strLower
    created_at := req.created_at
    metadata := { votes := some req.votes_count
                  comments_count := some req.comments_count
                  portal := some req.portal } }

/-! ## Theme matching -/

/-- Search for a whole-word (word-boundary delimited) occurrence of `kw`
starting at the current position of `t`; `pr` is the character before `t`.
This is `new RegExp("\\b" + escapeRegex(kw) + "\\b", "i").test(text)` with
both sides already lower-cased (`escapeRegex` makes the keyword literal). -/
def wholeWordSearch (kw : List Char) : List Char → Option Char → Bool
  | t, pr =>
    (kw.isPrefixOf t && boundaryAt pr t.head?
      && boundaryAt (if kw.isEmpty then pr else kw.getLast?)
        (t.drop kw.length).head?)
    ||
    match t with
    | [] => false
    | c :: rest => wholeWordSearch kw rest (some c)

/-- Source `matchesTheme(text, keywords)`: a multi-word keyword matches as a
substring (`text.includes(kw.toLowerCase())`), a single-word keyword as a
case-insensitive whole-word occurrence. -/
def matchesTheme (text : String) (keywords : List String) : Bool :=
  keywords.any fun kw =>
    if kw.data.contains ' ' then containsSub text.data (strLower kw).data
    else wholeWordSearch (strLower kw).data (strLower text).data none

/-! ## Scoring -/

/-- The `SEVERITY_TAG_BOOST` lookup table. -/
def SEVERITY_TAG_BOOST (tag : String) : Option ℚ :=
  if tag = "bug" then some 20
  else if tag = "urgent" then some 25
  else if tag = "escalation" then some 30
  else if tag = "escalated" then some 30
  else if tag = "critical" then some 25
  else none

/-- The tag-boost loop of `computeSeverityScore`: the boost of the FIRST
tag (in tag-list order) whose lower-cased form is in the table, else 0
(the loop `break`s after the first hit). -/
def firstTagBoost : List String → ℚ
  | [] => 0
  | t :: rest =>
    match SEVERITY_TAG_BOOST (strLower t) with
    | some b => b
    | none => firstTagBoost rest

/-- Is the point reactive? -/
def isReactive (p : DataPoint) : Bool :=
  match p.source with
  | SignalType.REACTIVE => true
  | SignalType.PROACTIVE => false

/-- Is the point proactive? -/
def isProactive (p : DataPoint) : Bool :=
  match p.source with
  | SignalType.REACTIVE => false
  | SignalType.PROACTIVE => true

/-- Age of a point in days at clock reading `now` (milliseconds). -/
def ageDays (now : ℚ) (p : DataPoint) : ℚ :=
  (now - p.created_at) / (1000 * 60 * 60 * 24)

/-- Per-point severity contribution: capped thread-count term, recency
term `30 * exp(-ageDays / 7)` (with `rexp` standing for `Math.exp`), and
the first-matching-tag boost.  Absent `thread_count` defaults to 1
(`p.metadata.thread_count ?? 1`), absent tags to `[]`. -/
def severityContribution (rexp : ℚ → ℚ) (now : ℚ) (p : DataPoint) : ℚ :=
  min ((p.metadata.thread_count.getD 1 : ℚ) * 10) 50
    + 30 * rexp (-(ageDays now p) / 7)
    + firstTagBoost (p.metadata.tags.getD [])

/-- Source `computeSeverityScore`: accumulate contributions over the reactive
points, average, cap at 100; 0 when there are no reactive points. -/
def computeSeverityScore (rexp : ℚ → ℚ) (now : ℚ) (points : List DataPoint) : ℚ :=
  let reactive := points.filter isReactive
  if reactive.isEmpty then 0
  else
    let totalScore := reactive.foldl (fun acc p => acc + severityContribution rexp now p) 0
    min (totalScore / reactive.length) 100

/-- Source `computeVoteMomentum`: `0.8 * Σ votes + 0.2 * Σ comments` over the
proactive points (absent counts default to 0); 0 when there are none. -/
def computeVoteMomentum (points : List DataPoint) : ℚ :=
  let proactive := points.filter isProactive
  if proactive.isEmpty then 0
  else
    let totalVotes := proactive.foldl (fun acc p => acc + (p.metadata.votes.getD 0 : ℚ)) 0
    let totalComments := proactive.foldl (fun acc p => acc + (p.metadata.comments_count.getD 0 : ℚ)) 0
    totalVotes * 0.8 + totalComments * 0.2

/-- Model of `Math.round(n * 100) / 100` (JS `Math.round x = ⌊x + 1/2⌋`). -/
def round2 (q : ℚ) : ℚ :=
  (⌊q * 100 + 1 / 2⌋ : ℤ) / 100

/-! ## Theme map (JS `Map<string, DataPoint[]>`) and analysis assembly -/

/-- Association list with JS `Map` semantics (insertion order preserved,
`set` overwrites in place). -/
abbrev ThemeMap := List (String × List DataPoint)

/-- JS `Map.get`. -/
def mapGet (m : ThemeMap) (k : String) : Option (List DataPoint) :=
  match m.find? fun e => e.1 = k with
  | some e => some e.2
  | none => none

/-- Source `themeMatches.get(id)!.push(dp)`: append `dp` to the entry for `k`
(which the caller has initialised). -/
def mapPush : ThemeMap → String → DataPoint → ThemeMap
  | [], _, _ => []
  | e :: rest, k, dp =>
    if e.1 = k then (e.1, e.2 ++ [dp]) :: rest
    else e :: mapPush rest k dp

/-- The initialisation loop `themeMatches.set(theme.id, [])` over the config
(later duplicates overwrite, keeping one entry per id as JS `Map.set`). -/
def initThemeMap (themes : List ThemeDefinition) : ThemeMap :=
  themes.foldl (fun m th => if (m.find? fun e => e.1 = th.id).isSome then m
    else m ++ [(th.id, [])]) []

/-- The matching loop: for each data point (outer) and theme (inner), push
the point onto the theme's entry when `matchesTheme` fires. -/
def themeMapOf (themes : List ThemeDefinition) (dataPoints : List DataPoint) : ThemeMap :=
  dataPoints.foldl
    (fun m dp => themes.foldl
      (fun m th => if matchesTheme dp.text th.keywords then mapPush m th.id dp else m) m)
    (initThemeMap themes)

/-- Did the point match at least one configured theme? -/
def matchesAnyTheme (themes : List ThemeDefinition) (dp : DataPoint) : Bool :=
  themes.any fun th => matchesTheme dp.text th.keywords

/-- The `matchedIds` set of the source: ids of points that matched at
least one theme (the matching loop adds `dp.id` on every match). -/
def matchedIdsOf (themes : List ThemeDefinition) (dps : List DataPoint) : List String :=
  dps.filterMap fun dp => if matchesAnyTheme themes dp then some dp.id else none

/-- Matched points of one theme id (`themeMatches.get(theme.id)!`). -/
def themePoints (themes : List ThemeDefinition) (dataPoints : List DataPoint)
    (id : String) : List DataPoint :=
  (mapGet (themeMapOf themes dataPoints) id).getD []

/-- Model of `Math.max(...xs, 1)` over rationals. -/
def listMaxQ (xs : List ℚ) : ℚ :=
  xs.foldr max 1

/-- The combined data-point list (conversations first, then requests). -/
def dataPointsOf (convs : List FormattedConversation)
    (reqs : List FormattedFeatureRequest) : List DataPoint :=
  convs.map conversationToDataPoint ++ reqs.map featureRequestToDataPoint

/-- Per-config-index raw frequency counts. -/
def frequencyCountsOf (themes : List ThemeDefinition) (dps : List DataPoint) : List ℚ :=
  themes.map fun th => ((themePoints themes dps th.id).length : ℚ)

/-- Per-config-index raw vote momenta. -/
def rawVoteMomentumsOf (themes : List ThemeDefinition) (dps : List DataPoint) : List ℚ :=
  themes.map fun th => computeVoteMomentum (themePoints themes dps th.id)

/-- The `ThemeMatch` record built for one theme from its matched points and
the cross-theme normalisers, exactly as in the body of the result loop of
`analyzeFeedback`. -/
def buildThemeMatch (td : ThemeDefinition) (points : List DataPoint)
    (fCount maxFrequency rawVM maxVoteMomentum : ℚ) (rexp : ℚ → ℚ) (now : ℚ) : ThemeMatch :=
  let reactiveCount := (points.filter isReactive).length
  let proactiveCount := (points.filter isProactive).length
  let convergent := decide (0 < reactiveCount) && decide (0 < proactiveCount)
  let frequencyScore := fCount / maxFrequency * 100
  let severityScore := computeSeverityScore rexp now points
  let voteMomentumScore := rawVM / maxVoteMomentum * 100
  let convergenceBoost : ℚ := if convergent then 2 else 1
  let priorityScore :=
    (frequencyScore * 0.35 + severityScore * 0.35 + voteMomentumScore * 0.3)
      * convergenceBoost
  { theme_id := td.id
    label := td.label
    category := td.category
    reactive_count := reactiveCount
    proactive_count := proactiveCount
    convergent := convergent
    frequency_score := round2 frequencyScore
    severity_score := round2 severityScore
    vote_momentum_score := round2 voteMomentumScore
    priority_score := round2 priorityScore
    data_points := points.map fun p => ⟨p.id, p.source, p.title⟩ }

/-- The result-building loop over config indices: skip themes with no
matched points, else build the `ThemeMatch` (config order). -/
def preSortThemes (cfg : ThemesConfig) (dps : List DataPoint)
    (rexp : ℚ → ℚ) (now : ℚ) : List ThemeMatch :=
  let counts := frequencyCountsOf cfg.themes dps
  let raws := rawVoteMomentumsOf cfg.themes dps
  let maxF := listMaxQ counts
  let maxV := listMaxQ raws
  (cfg.themes.zip (counts.zip raws)).filterMap fun e =>
    let pts := themePoints cfg.themes dps e.1.id
    if pts.isEmpty then none
    else some (buildThemeMatch e.1 pts e.2.1 maxF e.2.2 maxV rexp now)

/-- Stable insertion into a list kept descending by `key`: the new element
goes after every element of key ≥ its own, so equal keys keep their
original relative order (JS `Array.sort` is stable). -/
def insertDescBy {α : Type} {β : Type} [LinearOrder β] (key : α → β) (x : α) :
    List α → List α
  | [] => [x]
  | h :: rest =>
    if key h < key x then x :: h :: rest
    else h :: insertDescBy key x rest

/-- Stable sort descending by `key` (insertion sort, processing the input
left to right). -/
def sortDescBy {α : Type} {β : Type} [LinearOrder β] (key : α → β)
    (l : List α) : List α :=
  l.foldl (fun acc x => insertDescBy key x acc) []

/-- Stable sort descending by `priority_score`
(`themes.sort((a, b) => b.priority_score - a.priority_score)`). -/
def sortThemesDesc (l : List ThemeMatch) : List ThemeMatch :=
  sortDescBy ThemeMatch.priority_score l

/-! ## Emerging-theme detection -/

/-- Source `tokenize`: map every character outside `[a-z0-9\s]` to a space, split
on whitespace, drop tokens of length ≤ 2 and stop words. -/
def tokenize (text : String) (stopWords : List String) : List String :=
  let cleaned := text.data.map fun c =>
    if ('a' ≤ c && c ≤ 'z') || c.isDigit || jsSpace c then c else ' '
  ((cleaned.splitOnP jsSpace).map String.mk).filter fun w =>
    2 < w.length && !stopWords.contains w

/-- Contiguous bigrams. -/
def bigramsOf : List String → List String
  | a :: b :: rest => (a ++ " " ++ b) :: bigramsOf (b :: rest)
  | _ => []

/-- Contiguous trigrams. -/
def trigramsOf : List String → List String
  | a :: b :: c :: rest => (a ++ " " ++ b ++ " " ++ c) :: trigramsOf (b :: c :: rest)
  | _ => []

/-- Source `extractNgrams`: all bigrams, then all trigrams. -/
def extractNgrams (tokens : List String) : List String :=
  bigramsOf tokens ++ trigramsOf tokens

/-- N-gram → point-index map in JS `Map` insertion order; each point
contributes each distinct n-gram at most once. -/
abbrev NgramMap := List (String × List Nat)

/-- Add index `i` to the entry of `ng` (appending a fresh entry at the end
when absent, as JS `Map.set`). -/
def ngramAdd : NgramMap → String → Nat → NgramMap
  | [], ng, i => [(ng, [i])]
  | e :: rest, ng, i =>
    if e.1 = ng then (e.1, e.2 ++ [i]) :: rest
    else e :: ngramAdd rest ng i

/-- Process the n-grams of point `i`, skipping ones already `seen` for
this point (count once per data point). -/
def addPointNgrams : NgramMap → List String → Nat → List String → NgramMap
  | m, _, _, [] => m
  | m, seen, i, ng :: rest =>
    if seen.contains ng then addPointNgrams m seen i rest
    else addPointNgrams (ngramAdd m ng i) (ng :: seen) i rest

/-- The n-gram map over all unmatched points. -/
def ngramMapOf (points : List DataPoint) (stopWords : List String) : NgramMap :=
  (points.enum).foldl
    (fun m e => addPointNgrams m [] e.1 (extractNgrams (tokenize e.2.text stopWords)))
    []

/-- Candidates: n-grams whose containing set reaches `minFrequency`, in
descending order of containing-set size (stable sort, as JS
`sort((a, b) => b[1].size - a[1].size)`). -/
def sortedCandidates (points : List DataPoint) (stopWords : List String)
    (minFrequency : Nat) : NgramMap :=
  sortDescBy (fun e => e.2.length)
    ((ngramMapOf points stopWords).filter fun e => minFrequency ≤ e.2.length)

/-- The greedy claiming loop: for each candidate in order, compute its
still-unclaimed indices; emit only when at least `minFrequency` of them
remain, claiming exactly those. -/
def greedyClaim (minFrequency : Nat) : NgramMap → List Nat → NgramMap
  | [], _ => []
  | (ng, idxs) :: rest, claimed =>
    let unclaimed := idxs.filter fun i => !claimed.contains i
    if unclaimed.length < minFrequency then greedyClaim minFrequency rest claimed
    else (ng, unclaimed) :: greedyClaim minFrequency rest (claimed ++ unclaimed)

/-- Source `detectEmergingThemes`: greedy claiming over the sorted candidates,
rendered to `EmergingTheme` records. -/
def detectEmergingThemes (unmatchedPoints : List DataPoint)
    (stopWords : List String) (minFrequency : Nat) : List EmergingTheme :=
  (greedyClaim minFrequency (sortedCandidates unmatchedPoints stopWords minFrequency) []).map
    fun e =>
      { ngram := e.1
        frequency := e.2.length
        data_points := e.2.map fun i =>
          let p := unmatchedPoints.getD i default
          ⟨p.id, p.source, p.title⟩ }

/-- Source `analyzeFeedback`: normalise, match, score, sort, detect emerging
themes and assemble the result. -/
def analyzeFeedback (conversations : List FormattedConversation)
    (featureRequests : List FormattedFeatureRequest) (config : ThemesConfig)
    (rexp : ℚ → ℚ) (now : ℚ) : AnalysisResult :=
  let dataPoints := dataPointsOf conversations featureRequests
  let themes := sortThemesDesc (preSortThemes config dataPoints rexp now)
  let unmatchedPoints := dataPoints.filter fun dp =>
    !(matchedIdsOf config.themes dataPoints).contains dp.id
  let emergingThemes :=
    detectEmergingThemes unmatchedPoints config.stop_words
      config.emerging_theme_min_frequency
  { config_version := config.version
    known_themes_count := config.themes.length
    total_data_points := dataPoints.length
    reactive_count := conversations.length
    proactive_count := featureRequests.length
    themes := themes
    emerging_themes := emergingThemes
    unmatched_count := unmatchedPoints.length }

/-! ## Concrete inputs used by counterexamples and witnesses -/

/-- Constant-one stand-in for `Math.exp` used on age-0 inputs: the source
computes `Math.exp(-0 / 7) = 1` exactly there, so any decay function with
value 1 at 0 agrees with the source on such inputs. -/
def constOne : ℚ → ℚ := fun _ => 1

/-- A rational decreasing decay stand-in for `Math.exp` (value 1 at 0,
value 0 at −1), used to exhibit the clock dependence of the recency term:
the source's `Math.exp(-ageDays / 7)` likewise varies with the clock. -/
def decayLin : ℚ → ℚ := fun q => max (1 + q) 0

/-- A reactive point tagged `["bug", "escalation"]` (thread count 1,
created at the clock reading), distinguishing first-matching-tag from
highest-value-tag boosting. -/
def pTagged : DataPoint :=
  ⟨"hs-1", SignalType.REACTIVE, "t", "t", 0,
    ⟨some ["bug", "escalation"], none, none, some 1, none⟩⟩

/-- A reactive point with no optional metadata at all (in particular no
`thread_count`), created at the clock reading. -/
def pNoThread : DataPoint :=
  ⟨"hs-2", SignalType.REACTIVE, "t", "t", 0, ⟨none, none, none, none, none⟩⟩

/-- One-theme config whose single keyword is `dark`. -/
def cfgDark : ThemesConfig :=
  ⟨1, [⟨"darkmode", "Dark Mode", ["dark"], "ui"⟩], [], 2⟩

/-- A single feature request with 1 vote and 0 comments matching
`cfgDark` (raw vote momentum 0.8). -/
def reqDark : FormattedFeatureRequest :=
  ⟨"r1", "dark mode wanted", "", none, none, 1, 0, "portal", 0, 0, []⟩

/-- One-theme config whose single keyword is `billing`. -/
def cfgBilling : ThemesConfig :=
  ⟨1, [⟨"billing", "Billing", ["billing"], "rev"⟩], [], 2⟩

/-- A conversation mentioning `billing`, created at clock reading 0. -/
def convBilling : FormattedConversation :=
  ⟨7, 7, "billing bug", "active", 0, "c@x.io", [], "", [], 1⟩

/-- Six unmatched points: four contain the bigram `alpha beta`, three
contain `gamma delta` (one point contains both). -/
def emergingSample : List DataPoint :=
  [⟨"0", SignalType.REACTIVE, "a", "alpha beta", 0, {}⟩,
   ⟨"1", SignalType.REACTIVE, "b", "alpha beta", 0, {}⟩,
   ⟨"2", SignalType.REACTIVE, "c", "alpha beta", 0, {}⟩,
   ⟨"3", SignalType.REACTIVE, "d", "alpha beta gamma delta", 0, {}⟩,
   ⟨"4", SignalType.REACTIVE, "e", "gamma delta", 0, {}⟩,
   ⟨"5", SignalType.REACTIVE, "f", "gamma delta", 0, {}⟩]

/-- Modelled from the claim wording (for refinement comparison only): the
claimed tag-boost table escalation=30, urgent=25, critical=25, bug=20. -/
def claimTagTable (tag : String) : Option ℚ :=
  if tag = "escalation" then some 30
  else if tag = "urgent" then some 25
  else if tag = "critical" then some 25
  else if tag = "bug" then some 20
  else none

/-- Modelled from the claim wording (for refinement comparison only): the
single HIGHEST-value matching tag bonus. -/
def highestTagBoost (tags : List String) : ℚ :=
  tags.foldr (fun t acc => max ((claimTagTable (strLower t)).getD 0) acc) 0

/-- Modelled from the claim wording (for refinement comparison only):
mean over reactive signals of
`min(threadCount*10, 50) + 30*exp(-ageDays/7) + highest tag boost`,
capped at 100; 0 with no reactive signals. -/
def severitySpecHighestTag (rexp : ℚ → ℚ) (now : ℚ) (points : List DataPoint) : ℚ :=
  let reactive := points.filter isReactive
  if reactive.isEmpty then 0
  else
    min (((reactive.map fun p =>
      min ((p.metadata.thread_count.getD 1 : ℚ) * 10) 50
        + 30 * rexp (-(ageDays now p) / 7)
        + highestTagBoost (p.metadata.tags.getD [])).sum) / reactive.length) 100

/-! ## C2: scrubPii idempotence -/

set_option maxRecDepth 40000 in
/-- C2 counterexample: `scrubPii` is NOT idempotent.  On
`"123-45-67895551234567"` the first pass redacts only the trailing ten
digits as a phone number (the SSN-shaped prefix `123-45-6789` is then
followed by `[`, a non-word character); the second pass therefore finds a
freshly exposed SSN word boundary and redacts again. -/
theorem c2_scrub_not_idempotent :
    (scrubPii ((scrubPii "123-45-67895551234567").text)).text
      ≠ (scrubPii "123-45-67895551234567").text := by
  decide

set_option maxRecDepth 40000 in
/-- C2 amended: the placeholder tokens themselves are never matched or
altered by a further `scrubPii` pass — scrubbing any of the four
placeholder strings is a no-op reporting no PII categories (full
idempotence fails, see the counterexample). -/
theorem c2_placeholders_unaltered :
    scrubPii "[SSN REDACTED]" = ⟨"[SSN REDACTED]", []⟩
    ∧ scrubPii "[CC REDACTED]" = ⟨"[CC REDACTED]", []⟩
    ∧ scrubPii "[EMAIL REDACTED]" = ⟨"[EMAIL REDACTED]", []⟩
    ∧ scrubPii "[PHONE REDACTED]" = ⟨"[PHONE REDACTED]", []⟩ := by
  exact ⟨by decide, by decide, by decide, by decide⟩

/-! ## C3: the Luhn gate on credit-card candidates -/

/-- The fuel of `replaceGo` is irrelevant as soon as it covers the string
length (as `replaceRun` arranges), so the fuel encoding does not alter the
replacement semantics. -/
theorem replaceGo_fuel_irrelevant (r : Rx) (handle : List Char → List Char × Bool) :
    ∀ (fuel fuel' : Nat) (s : List Char) (pr : Option Char),
      s.length ≤ fuel → s.length ≤ fuel' →
      replaceGo r handle fuel s pr = replaceGo r handle fuel' s pr
  | fuel, fuel', [], pr => by
    intro _ _
    cases fuel <;> cases fuel' <;> simp [replaceGo]
  | fuel, fuel', c :: rest, pr => by
    intro h h'
    obtain ⟨f, rfl⟩ : ∃ f, fuel = f + 1 := ⟨fuel - 1, by simp at h; omega⟩
    obtain ⟨f2, rfl⟩ : ∃ f2, fuel' = f2 + 1 := ⟨fuel' - 1, by simp at h'; omega⟩
    simp only [replaceGo]
    have hlen : rest.length + 1 ≤ f + 1 := by simpa using h
    have hlen' : rest.length + 1 ≤ f2 + 1 := by simpa using h'
    rcases hm : matchAt r (c :: rest) pr with _ | k
    · rw [replaceGo_fuel_irrelevant r handle f f2 rest (some c)
        (by omega) (by omega)]
    · rcases k with _ | k
      · rw [replaceGo_fuel_irrelevant r handle f f2 rest (some c)
          (by omega) (by omega)]
      · dsimp only
        rw [replaceGo_fuel_irrelevant r handle f f2 ((c :: rest).drop (k + 1))
          ((c :: rest).take (k + 1)).getLast?
          (by simp only [List.length_drop, List.length_cons]; omega)
          (by simp only [List.length_drop, List.length_cons]; omega)]
termination_by fuel _ s => s.length
decreasing_by
  all_goals simp only [List.length_drop, List.length_cons]
  all_goals omega

/-- A true flag out of the global-replace loop means the handler flagged
some actual match. -/
theorem replaceGo_flag_exists (r : Rx) (handle : List Char → List Char × Bool) :
    ∀ (fuel : Nat) (s : List Char) (pr : Option Char),
      (replaceGo r handle fuel s pr).2 = true → ∃ m, (handle m).2 = true
  | 0, s, pr => by simp [replaceGo]
  | fuel + 1, [], pr => by simp [replaceGo]
  | fuel + 1, c :: rest, pr => by
    simp only [replaceGo]
    rcases hm : matchAt r (c :: rest) pr with _ | k
    · intro h
      exact replaceGo_flag_exists r handle fuel rest (some c) h
    · rcases k with _ | k
      · simp only [Bool.or_eq_true]
        rintro (h | h)
        · exact ⟨[], h⟩
        · exact replaceGo_flag_exists r handle fuel rest (some c) h
      · simp only [Bool.or_eq_true]
        rintro (h | h)
        · exact ⟨(c :: rest).take (k + 1), h⟩
        · exact replaceGo_flag_exists r handle fuel
            ((c :: rest).drop (k + 1)) ((c :: rest).take (k + 1)).getLast? h

set_option maxRecDepth 40000 in
/-- C3: a credit-card candidate is redacted only when its digits-only form
is 13–19 digits long and passes the Luhn checksum: `ccShouldRedact` is
exactly that gate, and whenever `scrubPii` reports `credit_card` some
matched span passed the gate; in particular `"4111111111111112"`
(Luhn-invalid) is not redacted as a credit card — no `credit_card`
category, no `[CC REDACTED]` — while Luhn-valid `"4111111111111111"` is
replaced by `[CC REDACTED]` and reported. -/
theorem c3_luhn_gate :
    (∀ m : List Char, ccShouldRedact m = true ↔
      13 ≤ (digitsOnly m).length ∧ (digitsOnly m).length ≤ 19
        ∧ passesLuhn (digitsOnly m) = true)
    ∧ (∀ s : String, "credit_card" ∈ (scrubPii s).piiCategoriesFound →
        ∃ m : List Char, ccShouldRedact m = true)
    ∧ "credit_card" ∉ (scrubPii "4111111111111112").piiCategoriesFound
    ∧ containsSub (scrubPii "4111111111111112").text.data "[CC REDACTED]".data = false
    ∧ (scrubPii "4111111111111111").text = "[CC REDACTED]"
    ∧ "credit_card" ∈ (scrubPii "4111111111111111").piiCategoriesFound := by
  refine ⟨fun m => ?_, fun s hmem => ?_, by decide, by decide, by decide, by decide⟩
  · simp [ccShouldRedact, Bool.and_eq_true, decide_eq_true_eq, and_assoc]
  · have hflag : (replaceRun ccRx
        (fun m => if ccShouldRedact m then ("[CC REDACTED]".data, true) else (m, false))
        (replaceAll ssnRx "[SSN REDACTED]".data s.data)).2 = true := by
      by_contra hcc
      rw [Bool.not_eq_true] at hcc
      have hne1 : ("credit_card" : String) ≠ "ssn" := by decide
      have hne2 : ("credit_card" : String) ≠ "email" := by decide
      have hne3 : ("credit_card" : String) ≠ "phone" := by decide
      simp only [scrubPii, hcc] at hmem
      revert hmem
      split <;> split <;> split <;>
        simp_all [hne1, hne2, hne3]
    rw [replaceRun] at hflag
    obtain ⟨m, hm⟩ := replaceGo_flag_exists ccRx _ _ _ _ hflag
    by_cases hg : ccShouldRedact m = true
    · exact ⟨m, hg⟩
    · rw [if_neg hg] at hm
      exact absurd hm (by simp)

set_option maxRecDepth 40000 in
/-- Witness for C3: on `"4111111111111111"` the reported `credit_card`
category indeed comes from a span passing the Luhn gate. -/
theorem c3_luhn_gate_witness : ∃ m : List Char, ccShouldRedact m = true :=
  c3_luhn_gate.2.1 "4111111111111111" (by decide)

/-! ## C4: the severity formula and the tag boost -/

/-- C4 counterexample: on a reactive signal tagged `["bug", "escalation"]`
the source adds the boost of the FIRST matching tag (`bug` = 20, the loop
breaks), not of the highest-value matching tag (`escalation` = 30): at age
0 the code yields 10 + 30 + 20 = 60 while the claimed formula yields
10 + 30 + 30 = 70. -/
theorem c4_first_tag_counterexample :
    computeSeverityScore constOne 0 [pTagged] = 60
    ∧ severitySpecHighestTag constOne 0 [pTagged] = 70
    ∧ computeSeverityScore constOne 0 [pTagged]
        ≠ severitySpecHighestTag constOne 0 [pTagged] := by
  have hb : strLower "bug" = "bug" := by decide
  have he : strLower "escalation" = "escalation" := by decide
  have h1 : computeSeverityScore constOne 0 [pTagged] = 60 := by
    simp [computeSeverityScore, severityContribution, firstTagBoost,
      SEVERITY_TAG_BOOST, isReactive, pTagged, constOne, ageDays, hb, he, min_def]
    norm_num
  have h2 : severitySpecHighestTag constOne 0 [pTagged] = 70 := by
    simp [severitySpecHighestTag, highestTagBoost, claimTagTable, isReactive,
      pTagged, constOne, ageDays, hb, he, min_def, max_def]
    norm_num
  refine ⟨h1, h2, ?_⟩
  rw [h1, h2]
  norm_num

/-- Folding `acc + f x` equals adding the sum of the mapped list. -/
theorem foldl_add_map_sum {α : Type} (f : α → ℚ) :
    ∀ (l : List α) (init : ℚ),
      l.foldl (fun acc x => acc + f x) init = init + (l.map f).sum
  | [], init => by simp
  | x :: rest, init => by
    simp only [List.foldl_cons, List.map_cons, List.sum_cons,
      foldl_add_map_sum f rest]
    ring

/-- C4 amended: `computeSeverityScore` is the mean over the REACTIVE points
of the per-signal contribution `min(threadCount*10, 50) + 30*exp(-ageDays/7)
+ boost of the FIRST matching tag in tag-list order` (table bug=20,
urgent=25, escalation=30, escalated=30, critical=25), capped at 100, and 0
when there are no reactive points. -/
theorem c4_severity_is_mean_of_contributions :
    ∀ (rexp : ℚ → ℚ) (now : ℚ) (points : List DataPoint),
      computeSeverityScore rexp now points =
        if (points.filter isReactive).isEmpty then 0
        else
          min (((points.filter isReactive).map (severityContribution rexp now)).sum
            / (points.filter isReactive).length) 100 := by
  intro rexp now points
  simp only [computeSeverityScore]
  split
  · rfl
  · rw [foldl_add_map_sum, zero_add]

/-! ## C5: defaults for missing optional fields -/

/-- C5 counterexample: a reactive signal with ABSENT `thread_count` gets the
default 1 (`?? 1`), not 0 — its thread-count term is `min(1*10, 50) = 10`,
so at age 0 with no tags the severity is 10 + 30 = 40, not the 0 + 30 = 30
the claim's `min(0*10, 50) = 0` would give. -/
theorem c5_thread_default_counterexample :
    computeSeverityScore constOne 0 [pNoThread] = 40
    ∧ computeSeverityScore constOne 0 [pNoThread] ≠ 30 := by
  have h : computeSeverityScore constOne 0 [pNoThread] = 40 := by
    simp [computeSeverityScore, severityContribution, firstTagBoost, isReactive,
      pNoThread, constOne, ageDays, min_def]
    norm_num
  refine ⟨h, ?_⟩
  rw [h]
  norm_num

/-- C5 amended: the scoring core is total over missing optional fields —
absent tag lists behave as `[]`, absent vote and comment counts as 0, but an
absent `thread_count` behaves as 1 (so its thread term is
`min(1*10, 50) = 10`, not 0). -/
theorem c5_optional_field_defaults :
    (∀ (rexp : ℚ → ℚ) (now : ℚ) (i t txt : String) (ts : ℚ)
        (tags : Option (List String)) (v cm : Option Nat) (portal : Option String),
      severityContribution rexp now ⟨i, SignalType.REACTIVE, t, txt, ts, ⟨tags, v, cm, none, portal⟩⟩
        = severityContribution rexp now ⟨i, SignalType.REACTIVE, t, txt, ts, ⟨tags, v, cm, some 1, portal⟩⟩)
    ∧ (∀ (rexp : ℚ → ℚ) (now : ℚ) (i t txt : String) (ts : ℚ)
        (v cm tc : Option Nat) (portal : Option String),
      severityContribution rexp now ⟨i, SignalType.REACTIVE, t, txt, ts, ⟨none, v, cm, tc, portal⟩⟩
        = severityContribution rexp now ⟨i, SignalType.REACTIVE, t, txt, ts, ⟨some [], v, cm, tc, portal⟩⟩)
    ∧ (∀ (i t txt : String) (ts : ℚ) (tags : Option (List String))
        (cm tc : Option Nat) (portal : Option String),
      computeVoteMomentum [⟨i, SignalType.PROACTIVE, t, txt, ts, ⟨tags, none, cm, tc, portal⟩⟩]
        = computeVoteMomentum [⟨i, SignalType.PROACTIVE, t, txt, ts, ⟨tags, some 0, cm, tc, portal⟩⟩])
    ∧ (∀ (i t txt : String) (ts : ℚ) (tags : Option (List String))
        (v tc : Option Nat) (portal : Option String),
      computeVoteMomentum [⟨i, SignalType.PROACTIVE, t, txt, ts, ⟨tags, v, none, tc, portal⟩⟩]
        = computeVoteMomentum [⟨i, SignalType.PROACTIVE, t, txt, ts, ⟨tags, v, some 0, tc, portal⟩⟩]) := by
  refine ⟨?_, ?_, ?_, ?_⟩ <;> intros <;> rfl

/-! ## C1: convergence boost and the priority formula -/

/-- A filtered list is nonempty exactly when some element passes. -/
theorem decide_pos_filter_length {α : Type} (p : α → Bool) (l : List α) :
    decide (0 < (l.filter p).length) = l.any p := by
  induction l with
  | nil => simp
  | cons x xs ih =>
    by_cases h : p x = true <;>
      simp [List.filter_cons, h, ih, Nat.succ_pos]

/-- C1: the themes of `analyzeFeedback` are exactly the built records (in
sorted order), and every built record has `convergent` true iff its
matched point set contains both a REACTIVE and a PROACTIVE signal and
`priority_score = round2((freq*0.35 + severity*0.35 + voteMomentum*0.30) *
convergenceBoost)` with boost 2 under convergence, else 1 (components
unrounded, boost applied before the final 2-decimal rounding). -/
theorem c1_convergence_boost_formula :
    (∀ (convs : List FormattedConversation) (reqs : List FormattedFeatureRequest)
        (cfg : ThemesConfig) (rexp : ℚ → ℚ) (now : ℚ),
      (analyzeFeedback convs reqs cfg rexp now).themes
        = sortThemesDesc (preSortThemes cfg (dataPointsOf convs reqs) rexp now))
    ∧ (∀ (td : ThemeDefinition) (points : List DataPoint) (fC maxF rVM maxV : ℚ)
        (rexp : ℚ → ℚ) (now : ℚ),
      (buildThemeMatch td points fC maxF rVM maxV rexp now).convergent
          = (points.any isReactive && points.any isProactive)
      ∧ (buildThemeMatch td points fC maxF rVM maxV rexp now).priority_score
          = round2 ((fC / maxF * 100 * 0.35
              + computeSeverityScore rexp now points * 0.35
              + rVM / maxV * 100 * 0.3)
            * (if points.any isReactive && points.any isProactive then 2 else 1))) := by
  constructor
  · intro convs reqs cfg rexp now
    rfl
  · intro td points fC maxF rVM maxV rexp now
    constructor
    · simp only [buildThemeMatch, decide_pos_filter_length]
    · simp only [buildThemeMatch, decide_pos_filter_length]

/-! ## Stable insertion sort: order and stability lemmas -/

theorem mem_insertDescBy {α β : Type} [LinearOrder β] (key : α → β) (x : α) :
    ∀ (l : List α) (a : α), a ∈ insertDescBy key x l ↔ a = x ∨ a ∈ l
  | [], a => by simp [insertDescBy]
  | h :: rest, a => by
    simp only [insertDescBy]
    split
    · simp [List.mem_cons]
    · simp only [List.mem_cons, mem_insertDescBy key x rest a]
      tauto

theorem pairwise_insertDescBy {α β : Type} [LinearOrder β] (key : α → β) (x : α) :
    ∀ (l : List α), l.Pairwise (fun a b => key b ≤ key a) →
      (insertDescBy key x l).Pairwise (fun a b => key b ≤ key a)
  | [], _ => by simp [insertDescBy]
  | h :: rest, hl => by
    simp only [insertDescBy]
    rcases List.pairwise_cons.mp hl with ⟨hhd, htl⟩
    split
    · refine List.pairwise_cons.mpr ⟨?_, hl⟩
      intro b hb
      rcases List.mem_cons.mp hb with rfl | hb
      · exact le_of_lt (by assumption)
      · exact le_trans (hhd b hb) (le_of_lt (by assumption))
    · refine List.pairwise_cons.mpr ⟨?_, pairwise_insertDescBy key x rest htl⟩
      intro b hb
      rcases (mem_insertDescBy key x rest b).mp hb with rfl | hb
      · exact le_of_not_lt (by assumption)
      · exact hhd b hb

theorem sorted_foldl_insertDescBy {α β : Type} [LinearOrder β] (key : α → β) :
    ∀ (l : List α) (acc : List α), acc.Pairwise (fun a b => key b ≤ key a) →
      (l.foldl (fun acc x => insertDescBy key x acc) acc).Pairwise
        (fun a b => key b ≤ key a)
  | [], acc, hacc => hacc
  | x :: rest, acc, hacc =>
    sorted_foldl_insertDescBy key rest (insertDescBy key x acc)
      (pairwise_insertDescBy key x acc hacc)

/-- Sorting with `sortDescBy` yields a list descending in `key`. -/
theorem pairwise_sortDescBy {α β : Type} [LinearOrder β] (key : α → β) (l : List α) :
    (sortDescBy key l).Pairwise (fun a b => key b ≤ key a) :=
  sorted_foldl_insertDescBy key l [] (List.Pairwise.nil)

theorem filter_insertDescBy {α β : Type} [LinearOrder β] (key : α → β) (x : α) (v : β) :
    ∀ (l : List α), l.Pairwise (fun a b => key b ≤ key a) →
      (insertDescBy key x l).filter (fun a => decide (key a = v))
        = l.filter (fun a => decide (key a = v))
          ++ (if key x = v then [x] else [])
  | [], _ => by
    simp only [insertDescBy, List.filter_nil, List.nil_append]
    split <;> simp_all [List.filter_cons]
  | h :: rest, hl => by
    rcases List.pairwise_cons.mp hl with ⟨hhd, htl⟩
    simp only [insertDescBy]
    split
    · by_cases hx : key x = v
      · have hrest : (h :: rest).filter (fun a => decide (key a = v)) = [] := by
          refine List.filter_eq_nil_iff.mpr ?_
          intro a ha
          have hle : key a ≤ key h := by
            rcases List.mem_cons.mp ha with rfl | ha
            · exact le_refl _
            · exact hhd a ha
          have : key a < v := lt_of_le_of_lt hle (hx ▸ (by assumption))
          simp [ne_of_lt this]
        simp [List.filter_cons, hx, hrest]
      · simp [List.filter_cons, hx]
    · by_cases hh : key h = v <;>
        simp [List.filter_cons, hh, filter_insertDescBy key x v rest htl]

theorem filter_foldl_insertDescBy {α β : Type} [LinearOrder β] (key : α → β) (v : β) :
    ∀ (l : List α) (acc : List α), acc.Pairwise (fun a b => key b ≤ key a) →
      (l.foldl (fun acc x => insertDescBy key x acc) acc).filter
          (fun a => decide (key a = v))
        = acc.filter (fun a => decide (key a = v))
          ++ l.filter (fun a => decide (key a = v))
  | [], acc, _ => by simp
  | x :: rest, acc, hacc => by
    have ih := filter_foldl_insertDescBy key v rest (insertDescBy key x acc)
      (pairwise_insertDescBy key x acc hacc)
    simp only [List.foldl_cons, ih, filter_insertDescBy key x v acc hacc,
      List.filter_cons, List.append_assoc]
    by_cases hx : key x = v <;> simp [hx]

/-- Stability of `sortDescBy`: elements of any fixed key keep their
original relative order. -/
theorem filter_sortDescBy {α β : Type} [LinearOrder β] (key : α → β) (v : β)
    (l : List α) :
    (sortDescBy key l).filter (fun a => decide (key a = v))
      = l.filter (fun a => decide (key a = v)) := by
  simpa using filter_foldl_insertDescBy key v l [] List.Pairwise.nil

theorem mem_foldl_insertDescBy {α β : Type} [LinearOrder β] (key : α → β) :
    ∀ (l : List α) (acc : List α) (a : α),
      a ∈ l.foldl (fun acc x => insertDescBy key x acc) acc ↔ a ∈ acc ∨ a ∈ l
  | [], acc, a => by simp
  | x :: rest, acc, a => by
    simp only [List.foldl_cons, mem_foldl_insertDescBy key rest _ a,
      mem_insertDescBy key x acc a, List.mem_cons]
    tauto

/-- Membership is preserved by the sort. -/
theorem mem_sortDescBy {α β : Type} [LinearOrder β] (key : α → β) (l : List α)
    (a : α) : a ∈ sortDescBy key l ↔ a ∈ l := by
  simpa using mem_foldl_insertDescBy key l [] a

/-! ## C9: result ordering and tie stability -/

/-- C9: the themes list of every `AnalysisResult` is descending in
`priority_score`, and themes of any fixed priority appear in exactly their
theme-definition (config) order — the pre-sort list `preSortThemes` is in
config order and the sort is stable, with no secondary key. -/
theorem c9_sorted_stable :
    ∀ (convs : List FormattedConversation) (reqs : List FormattedFeatureRequest)
      (cfg : ThemesConfig) (rexp : ℚ → ℚ) (now : ℚ),
      ((analyzeFeedback convs reqs cfg rexp now).themes).Pairwise
          (fun a b => b.priority_score ≤ a.priority_score)
      ∧ ∀ v : ℚ,
        ((analyzeFeedback convs reqs cfg rexp now).themes).filter
            (fun t => decide (t.priority_score = v))
          = (preSortThemes cfg (dataPointsOf convs reqs) rexp now).filter
            (fun t => decide (t.priority_score = v)) := by
  intro convs reqs cfg rexp now
  constructor
  · exact pairwise_sortDescBy ThemeMatch.priority_score _
  · intro v
    exact filter_sortDescBy ThemeMatch.priority_score v _

/-! ## C6: normalization of frequency and vote momentum -/

/-- Compute `round2` from explicit floor bounds. -/
theorem round2_eq_of_bounds (q : ℚ) (n : ℤ) (h1 : (n : ℚ) ≤ q * 100 + 1 / 2)
    (h2 : q * 100 + 1 / 2 < n + 1) : round2 q = n / 100 := by
  rw [round2, Int.floor_eq_iff.mpr ⟨h1, by exact_mod_cast h2⟩]

theorem round2_hundred : round2 100 = 100 := by
  rw [round2_eq_of_bounds 100 10000 (by norm_num) (by norm_num)]
  norm_num

theorem le_listMaxQ : ∀ (xs : List ℚ) (x : ℚ), x ∈ xs → x ≤ listMaxQ xs := by
  intro xs
  induction xs with
  | nil => intro x hx; simp at hx
  | cons y t ih =>
    intro x hx
    rcases List.mem_cons.mp hx with rfl | hx
    · exact le_max_left _ _
    · exact le_trans (ih x hx) (le_max_right _ _)

theorem one_le_listMaxQ : ∀ xs : List ℚ, 1 ≤ listMaxQ xs := by
  intro xs
  induction xs with
  | nil => exact le_refl 1
  | cons y t ih => exact le_trans ih (le_max_right _ _)

theorem listMaxQ_le (xs : List ℚ) (c : ℚ) (hall : ∀ x ∈ xs, x ≤ c)
    (hc : 1 ≤ c) : listMaxQ xs ≤ c := by
  induction xs with
  | nil => exact hc
  | cons y t ih =>
    exact max_le (hall y (List.mem_cons_self y t))
      (ih fun x hx => hall x (List.mem_cons_of_mem y hx))

/-- C6 amended: scores are normalised by `raw / max(allRaws, 1) * 100` and
rounded; a theme whose raw value is the maximum scores 100 PROVIDED that
maximum is at least 1 (always true for frequency counts of emitted themes,
but a top raw vote momentum below 1 — e.g. a single 1-vote signal, raw 0.8 —
scores raw*100, not 100); themes with zero matched points are excluded. -/
theorem c6_normalization_amended :
    (∀ (xs : List ℚ) (c : ℚ), c ∈ xs → (∀ x ∈ xs, x ≤ c) → 1 ≤ c →
      round2 (c / listMaxQ xs * 100) = 100)
    ∧ (∀ (td : ThemeDefinition) (pts : List DataPoint) (fC maxF rVM maxV : ℚ)
        (rexp : ℚ → ℚ) (now : ℚ),
      (buildThemeMatch td pts fC maxF rVM maxV rexp now).frequency_score
          = round2 (fC / maxF * 100)
      ∧ (buildThemeMatch td pts fC maxF rVM maxV rexp now).vote_momentum_score
          = round2 (rVM / maxV * 100))
    ∧ (∀ (convs : List FormattedConversation) (reqs : List FormattedFeatureRequest)
        (cfg : ThemesConfig) (rexp : ℚ → ℚ) (now : ℚ) (t : ThemeMatch),
      t ∈ (analyzeFeedback convs reqs cfg rexp now).themes → t.data_points ≠ []) := by
  refine ⟨?_, ?_, ?_⟩
  · intro xs c hmem hall hc
    have hmax : listMaxQ xs = c :=
      le_antisymm (listMaxQ_le xs c hall hc) (le_listMaxQ xs c hmem)
    have hc0 : c ≠ 0 := (lt_of_lt_of_le one_pos hc).ne'
    rw [hmax, div_self hc0, one_mul]
    exact round2_hundred
  · intro td pts fC maxF rVM maxV rexp now
    exact ⟨rfl, rfl⟩
  · intro convs reqs cfg rexp now t ht
    have ht' := (mem_sortDescBy ThemeMatch.priority_score _ t).mp ht
    simp only [preSortThemes, List.mem_filterMap] at ht'
    obtain ⟨e, _, hf⟩ := ht'
    by_cases hE : (themePoints cfg.themes (dataPointsOf convs reqs) e.1.id).isEmpty
    · rw [if_pos hE] at hf
      cases hf
    · rw [if_neg hE] at hf
      obtain rfl : buildThemeMatch _ _ _ _ _ _ _ _ = t := Option.some.inj hf
      have hptsne : themePoints cfg.themes (dataPointsOf convs reqs) e.1.id ≠ [] := by
        simpa [List.isEmpty_iff] using hE
      simp only [buildThemeMatch, ne_eq]
      simpa [List.map_eq_nil_iff] using hptsne

/-- Witness for the C6 amended theorem at a concrete maximal count. -/
theorem c6_normalization_amended_witness :
    round2 ((2 : ℚ) / listMaxQ [2] * 100) = 100 :=
  c6_normalization_amended.1 [2] 2 (List.mem_singleton.mpr rfl) (by simp)
    one_le_two

/-- C6 counterexample: a run with one theme matched by a single 1-vote
proactive signal — the largest positive raw vote momentum is 0.8, but the
normaliser divides by `max(0.8, 1) = 1`, so its reported
`vote_momentum_score` is 80, not the claimed 100. -/
theorem c6_vote_normalizer_counterexample :
    ((analyzeFeedback [] [reqDark] cfgDark constOne 0).themes.map
        ThemeMatch.vote_momentum_score) = [80]
    ∧ (80 : ℚ) ≠ 100 := by
  have hpts : themePoints [⟨"darkmode", "Dark Mode", ["dark"], "ui"⟩]
      (dataPointsOf [] [reqDark]) "darkmode"
      = [featureRequestToDataPoint reqDark] := by decide
  have hvm : computeVoteMomentum [featureRequestToDataPoint reqDark] = 4/5 := by
    simp [computeVoteMomentum, isProactive, featureRequestToDataPoint, reqDark]
    norm_num
  have hmaxA : max (4/5 : ℚ) 1 = 1 := by
    rw [max_def]
    norm_num
  have hmaxB : max (1 : ℚ) 1 = 1 := max_self 1
  have hthemes : (analyzeFeedback [] [reqDark] cfgDark constOne 0).themes
      = [buildThemeMatch ⟨"darkmode", "Dark Mode", ["dark"], "ui"⟩
          [featureRequestToDataPoint reqDark] 1 1 (4/5) 1 constOne 0] := by
    simp [analyzeFeedback, sortThemesDesc, sortDescBy, insertDescBy, preSortThemes,
      frequencyCountsOf, rawVoteMomentumsOf, cfgDark, hpts, hvm, hmaxA, hmaxB, listMaxQ]
  have hmap : ((analyzeFeedback [] [reqDark] cfgDark constOne 0).themes.map
      ThemeMatch.vote_momentum_score) = [round2 (4/5 / 1 * 100)] := by
    rw [hthemes]
    rfl
  have h80 : round2 (4/5 / 1 * 100 : ℚ) = 80 := by
    rw [round2_eq_of_bounds _ 8000 (by norm_num) (by norm_num)]
    norm_num
  refine ⟨by rw [hmap, h80], by norm_num⟩

/-! ## C7: greedy emerging-theme claiming -/

theorem greedyClaim_not_claimed (minF : Nat) :
    ∀ (cands : NgramMap) (claimed : List Nat) (e : String × List Nat),
      e ∈ greedyClaim minF cands claimed → ∀ i ∈ e.2, i ∉ claimed
  | [], claimed, e => by simp [greedyClaim]
  | (ng, idxs) :: rest, claimed, e => by
    simp only [greedyClaim]
    by_cases hlt : (idxs.filter fun i => !claimed.contains i).length < minF
    · rw [if_pos hlt]
      exact fun he => greedyClaim_not_claimed minF rest claimed e he
    · rw [if_neg hlt]
      intro he
      rcases List.mem_cons.mp he with rfl | he
      · intro i hi
        have hmem := (List.mem_filter.mp hi).2
        simpa using hmem
      · intro i hi hc
        exact greedyClaim_not_claimed minF rest _ e he i hi
          (List.mem_append_left _ hc)

theorem greedyClaim_pairwise_disjoint (minF : Nat) :
    ∀ (cands : NgramMap) (claimed : List Nat),
      (greedyClaim minF cands claimed).Pairwise (fun a b => ∀ i ∈ a.2, i ∉ b.2)
  | [], claimed => by simp [greedyClaim]
  | (ng, idxs) :: rest, claimed => by
    simp only [greedyClaim]
    by_cases hlt : (idxs.filter fun i => !claimed.contains i).length < minF
    · rw [if_pos hlt]
      exact greedyClaim_pairwise_disjoint minF rest claimed
    · rw [if_neg hlt]
      refine List.pairwise_cons.mpr ⟨?_, greedyClaim_pairwise_disjoint minF rest _⟩
      intro b hb i hi hib
      exact greedyClaim_not_claimed minF rest _ b hb i hib
        (List.mem_append_right claimed hi)

theorem greedyClaim_min_length (minF : Nat) :
    ∀ (cands : NgramMap) (claimed : List Nat) (e : String × List Nat),
      e ∈ greedyClaim minF cands claimed → minF ≤ e.2.length
  | [], _, e => by simp [greedyClaim]
  | (ng, idxs) :: rest, claimed, e => by
    simp only [greedyClaim]
    by_cases hlt : (idxs.filter fun i => !claimed.contains i).length < minF
    · rw [if_pos hlt]
      exact fun he => greedyClaim_min_length minF rest claimed e he
    · rw [if_neg hlt]
      intro he
      rcases List.mem_cons.mp he with rfl | he
      · exact not_lt.mp hlt
      · exact greedyClaim_min_length minF rest _ e he

/-- C7: the emitted emerging themes claim pairwise-disjoint index sets (no
unmatched signal in two themes); candidates are processed in descending
order of containing-set size; a theme is emitted only when at least
`minFrequency` still-unclaimed signals remain (claiming exactly those); and
`detectEmergingThemes` renders exactly the greedy loop's output. -/
theorem c7_emerging_partition :
    ∀ (pts : List DataPoint) (sw : List String) (minF : Nat),
      (greedyClaim minF (sortedCandidates pts sw minF) []).Pairwise
          (fun a b => ∀ i ∈ a.2, i ∉ b.2)
      ∧ (sortedCandidates pts sw minF).Pairwise
          (fun a b => b.2.length ≤ a.2.length)
      ∧ (∀ e ∈ greedyClaim minF (sortedCandidates pts sw minF) [],
          minF ≤ e.2.length)
      ∧ detectEmergingThemes pts sw minF
          = (greedyClaim minF (sortedCandidates pts sw minF) []).map
            (fun e => ⟨e.1, e.2.length, e.2.map fun i =>
              let p := pts.getD i default
              ⟨p.id, p.source, p.title⟩⟩) := by
  intro pts sw minF
  refine ⟨greedyClaim_pairwise_disjoint minF _ [], ?_, ?_, rfl⟩
  · exact pairwise_sortDescBy (fun e : String × List Nat => e.2.length) _
  · exact fun e he => greedyClaim_min_length minF _ [] e he

/-- Witness for C7 on a concrete run: the second emitted n-gram of
`emergingSample` (min frequency 2) claims at least 2 signals. -/
theorem c7_emerging_partition_witness :
    (2 : Nat) ≤ (("gamma delta", ([4, 5] : List Nat)) : String × List Nat).2.length :=
  (c7_emerging_partition emergingSample [] 2).2.2.1 ("gamma delta", [4, 5])
    (by decide)

/-! ## C10: emitted frequency counts newly claimed signals only -/

/-- C10: every emitted `EmergingTheme` has `frequency` equal to the length
of its `data_points` (the signals newly claimed for it), and that can be
strictly smaller than the number of unmatched signals containing the
n-gram: in `emergingSample`, `"gamma delta"` is contained in 3 signals but
is emitted with frequency 2 after `"alpha beta"` claimed one of them. -/
theorem c10_frequency_is_claimed_count :
    (∀ (pts : List DataPoint) (sw : List String) (f : Nat),
      (detectEmergingThemes pts sw f).all
          (fun e => e.frequency == e.data_points.length) = true)
    ∧ ((detectEmergingThemes emergingSample [] 2).map
        (fun e => (e.ngram, e.frequency)) = [("alpha beta", 4), ("gamma delta", 2)])
    ∧ ((ngramMapOf emergingSample []).find? (fun e => e.1 = "gamma delta")
        = some ("gamma delta", [3, 4, 5]))
    ∧ 2 < 3 := by
  refine ⟨?_, by decide, by decide, by norm_num⟩
  intro pts sw f
  simp only [detectEmergingThemes, List.all_eq_true]
  intro e he
  rcases List.mem_map.mp he with ⟨x, _, rfl⟩
  simp

/-! ## C8: determinism and the clock -/

theorem mapPush_all {P : DataPoint → Prop} :
    ∀ (m : ThemeMap) (k : String) (dp : DataPoint),
      (∀ e ∈ m, ∀ p ∈ e.2, P p) → P dp →
      ∀ e ∈ mapPush m k dp, ∀ p ∈ e.2, P p
  | [], k, dp => by simp [mapPush]
  | ent :: rest, k, dp => by
    intro hInv hdp e he
    simp only [mapPush] at he
    split at he
    · rcases List.mem_cons.mp he with rfl | he
      · intro p hp
        rcases List.mem_append.mp hp with hp | hp
        · exact hInv ent (List.mem_cons_self ent rest) p hp
        · rw [List.mem_singleton.mp hp]
          exact hdp
      · exact hInv e (List.mem_cons_of_mem ent he)
    · rcases List.mem_cons.mp he with rfl | he
      · exact hInv e (List.mem_cons_self e rest)
      · exact mapPush_all rest k dp
          (fun e' he' => hInv e' (List.mem_cons_of_mem ent he')) hdp e he

theorem matchLoop_all {P : DataPoint → Prop} :
    ∀ (ths : List ThemeDefinition) (m : ThemeMap) (dp : DataPoint),
      (∀ e ∈ m, ∀ p ∈ e.2, P p) → P dp →
      ∀ e ∈ ths.foldl
        (fun m th => if matchesTheme dp.text th.keywords then mapPush m th.id dp else m) m,
        ∀ p ∈ e.2, P p
  | [], m, dp => fun hInv _ => hInv
  | th :: rest, m, dp => by
    intro hInv hdp
    simp only [List.foldl_cons]
    by_cases hm : matchesTheme dp.text th.keywords = true
    · rw [if_pos hm]
      exact matchLoop_all rest _ dp (mapPush_all m th.id dp hInv hdp) hdp
    · rw [if_neg hm]
      exact matchLoop_all rest m dp hInv hdp

theorem initThemeMap_all {P : DataPoint → Prop} :
    ∀ (ths : List ThemeDefinition) (acc : ThemeMap),
      (∀ e ∈ acc, ∀ p ∈ e.2, P p) →
      ∀ e ∈ ths.foldl
        (fun m th => if (m.find? fun e => e.1 = th.id).isSome then m
          else m ++ [(th.id, [])]) acc,
        ∀ p ∈ e.2, P p
  | [], acc => fun hInv => hInv
  | th :: rest, acc => by
    intro hInv
    simp only [List.foldl_cons]
    split
    · exact initThemeMap_all rest acc hInv
    · refine initThemeMap_all rest _ ?_
      intro e he
      rcases List.mem_append.mp he with he | he
      · exact hInv e he
      · rw [List.mem_singleton.mp he]
        intro p hp
        simp at hp

theorem themeMapOf_all {P : DataPoint → Prop} :
    ∀ (dps : List DataPoint) (ths : List ThemeDefinition) (acc : ThemeMap),
      (∀ e ∈ acc, ∀ p ∈ e.2, P p) → (∀ dp ∈ dps, P dp) →
      ∀ e ∈ dps.foldl
        (fun m dp => ths.foldl
          (fun m th => if matchesTheme dp.text th.keywords then mapPush m th.id dp else m) m)
        acc,
        ∀ p ∈ e.2, P p
  | [], ths, acc => fun hInv _ => hInv
  | dp :: rest, ths, acc => by
    intro hInv hdps
    simp only [List.foldl_cons]
    exact themeMapOf_all rest ths _
      (matchLoop_all ths acc dp hInv (hdps dp (List.mem_cons_self dp rest)))
      (fun d hd => hdps d (List.mem_cons_of_mem dp hd))

/-- Every point a theme's matched set holds comes from the input data
points, so pointwise properties of the inputs transfer. -/
theorem themePoints_all {P : DataPoint → Prop} (ths : List ThemeDefinition)
    (dps : List DataPoint) (hdps : ∀ dp ∈ dps, P dp) (id : String) :
    ∀ p ∈ themePoints ths dps id, P p := by
  intro p hp
  have hmap : ∀ e ∈ themeMapOf ths dps, ∀ q ∈ e.2, P q := by
    intro e he
    exact themeMapOf_all dps ths (initThemeMap ths)
      (initThemeMap_all ths [] (by simp)) hdps e he
  simp only [themePoints, mapGet] at hp
  split at hp
  · next e heq =>
    exact hmap e (List.mem_of_find?_eq_some heq) p (by simpa using hp)
  · simp at hp

/-- Severity of a point set with no reactive member is 0, regardless of the
clock. -/
theorem computeSeverityScore_all_proactive (rexp : ℚ → ℚ) (now : ℚ)
    (pts : List DataPoint) (h : ∀ p ∈ pts, isProactive p = true) :
    computeSeverityScore rexp now pts = 0 := by
  have hfil : pts.filter isReactive = [] := by
    refine List.filter_eq_nil_iff.mpr ?_
    intro p hp hre
    have hpa := h p hp
    cases hs : p.source <;> simp [isReactive, isProactive, hs] at hre hpa
  simp [computeSeverityScore, hfil]

/-- C8 amended: the clock (the model's stand-in for the `Date.now()` read
inside `computeSeverityScore`) influences the result ONLY through the
recency term of severity over reactive signals — with no conversations the
result is identical at any two clock readings, for any decay function. -/
theorem c8_no_reactive_clock_invariance :
    ∀ (reqs : List FormattedFeatureRequest) (cfg : ThemesConfig)
      (rexp : ℚ → ℚ) (now now' : ℚ),
      analyzeFeedback [] reqs cfg rexp now = analyzeFeedback [] reqs cfg rexp now' := by
  intro reqs cfg rexp now now'
  have hdps : ∀ dp ∈ dataPointsOf [] reqs, isProactive dp = true := by
    intro dp hdp
    simp only [dataPointsOf, List.map_nil, List.nil_append, List.mem_map] at hdp
    obtain ⟨r, _, rfl⟩ := hdp
    rfl
  have hpre : preSortThemes cfg (dataPointsOf [] reqs) rexp now
      = preSortThemes cfg (dataPointsOf [] reqs) rexp now' := by
    simp only [preSortThemes]
    refine List.filterMap_congr ?_
    intro e _
    by_cases hE : (themePoints cfg.themes (dataPointsOf [] reqs) e.1.id).isEmpty
    · rw [if_pos hE, if_pos hE]
    · rw [if_neg hE, if_neg hE]
      have hsev : computeSeverityScore rexp now
          (themePoints cfg.themes (dataPointsOf [] reqs) e.1.id)
          = computeSeverityScore rexp now'
            (themePoints cfg.themes (dataPointsOf [] reqs) e.1.id) := by
        rw [computeSeverityScore_all_proactive rexp now _
            (themePoints_all cfg.themes _ hdps e.1.id),
          computeSeverityScore_all_proactive rexp now' _
            (themePoints_all cfg.themes _ hdps e.1.id)]
      simp only [buildThemeMatch, hsev]
  simp only [analyzeFeedback, hpre]

/-- C8 counterexample: two runs of `analyzeFeedback` on IDENTICAL
conversations, feature requests and config but different clock readings
(0 and 7 days later) produce different results — with the decreasing decay
stand-in `decayLin` the severity is 40 at age 0 and 10 at age 7 days
(`Math.exp` likewise varies with age); `now` comes from `Date.now()`
inside `computeSeverityScore`, not from an injectable parameter. -/
theorem c8_clock_dependence_counterexample :
    analyzeFeedback [convBilling] [] cfgBilling decayLin 0
      ≠ analyzeFeedback [convBilling] [] cfgBilling decayLin 604800000 := by
  have hpts : themePoints [⟨"billing", "Billing", ["billing"], "rev"⟩]
      (dataPointsOf [convBilling] []) "billing"
      = [conversationToDataPoint convBilling] := by decide
  have hvm : computeVoteMomentum [conversationToDataPoint convBilling] = 0 := by decide
  have hmax0 : max (0 : ℚ) 1 = 1 := by
    rw [max_def]
    norm_num
  have hmaxB : max (1 : ℚ) 1 = 1 := max_self 1
  have hsev0 : computeSeverityScore decayLin 0 [conversationToDataPoint convBilling] = 40 := by
    simp [computeSeverityScore, severityContribution, firstTagBoost, isReactive,
      conversationToDataPoint, convBilling, decayLin, ageDays, min_def, max_def]
    norm_num
  have hsev7 : computeSeverityScore decayLin 604800000
      [conversationToDataPoint convBilling] = 10 := by
    simp [computeSeverityScore, severityContribution, firstTagBoost, isReactive,
      conversationToDataPoint, convBilling, decayLin, ageDays, min_def, max_def]
    norm_num
  have hthemes0 : (analyzeFeedback [convBilling] [] cfgBilling decayLin 0).themes
      = [buildThemeMatch ⟨"billing", "Billing", ["billing"], "rev"⟩
          [conversationToDataPoint convBilling] 1 1 0 1 decayLin 0] := by
    simp [analyzeFeedback, sortThemesDesc, sortDescBy, insertDescBy, preSortThemes,
      frequencyCountsOf, rawVoteMomentumsOf, cfgBilling, hpts, hvm, hmax0, hmaxB, listMaxQ]
  have hthemes7 : (analyzeFeedback [convBilling] [] cfgBilling decayLin 604800000).themes
      = [buildThemeMatch ⟨"billing", "Billing", ["billing"], "rev"⟩
          [conversationToDataPoint convBilling] 1 1 0 1 decayLin 604800000] := by
    simp [analyzeFeedback, sortThemesDesc, sortDescBy, insertDescBy, preSortThemes,
      frequencyCountsOf, rawVoteMomentumsOf, cfgBilling, hpts, hvm, hmax0, hmaxB, listMaxQ]
  have r40 : round2 (40 : ℚ) = 40 := by
    rw [round2_eq_of_bounds 40 4000 (by norm_num) (by norm_num)]
    norm_num
  have r10 : round2 (10 : ℚ) = 10 := by
    rw [round2_eq_of_bounds 10 1000 (by norm_num) (by norm_num)]
    norm_num
  have e0 : (analyzeFeedback [convBilling] [] cfgBilling decayLin 0).themes.map
      ThemeMatch.severity_score = [40] := by
    rw [hthemes0]
    show [round2 (computeSeverityScore decayLin 0 [conversationToDataPoint convBilling])] = [40]
    rw [hsev0, r40]
  have e7 : (analyzeFeedback [convBilling] [] cfgBilling decayLin 604800000).themes.map
      ThemeMatch.severity_score = [10] := by
    rw [hthemes7]
    show [round2 (computeSeverityScore decayLin 604800000 [conversationToDataPoint convBilling])] = [10]
    rw [hsev7, r10]
  intro h
  rw [h, e7] at e0
  simp at e0
